import Mathlib

/-!
Shallow embedding of `backend/app/services/simulation.py` (bar-hopping route
optimizer) and verification of its specification.

Modelling conventions:
* Python floats are modelled as `ℚ` (all arithmetic in the program is on
  decimal constants and sixtieths of an hour, so exact rationals are faithful).
* Python `round` (banker's rounding, half to even) is modelled by `pyRound`.
* Python `int` truncation in `format_time` is applied to non-negative values
  only (after `% 24`), where it coincides with `Int.floor`.
* The implicit wall-clock day (`get_day_of_week`) is threaded through as an
  explicit `Day` parameter, as the functions otherwise depend only on it.
* `itertools.permutations` enumerates permutations by lexicographic order of
  positions, the first being the input order itself; `permsLex` mirrors that.
* Dictionaries returned by the Python functions become the structures
  `RouteStep` / `SimResult`.  `RouteStep` additionally records the numeric
  values of the locals `current_hour` and `departure_hour` from which the
  formatted `arrival`/`depart` strings are produced (the strings are kept too).
-/

inductive Day where
  | monday
  | tuesday
  | wednesday
  | thursday
  | friday
  | saturday
  | sunday
  deriving DecidableEq, Repr

/-- Attributes of one bar in `BAR_ROSTER`. -/
structure Bar where
  name : String
  capacity : ℤ
  popularity : ℤ
  base_wait : ℤ
  hours : Day → Option (ℤ × ℤ)

/-- Configuration constants from the top of `simulation.py`. -/
def BASE_WAIT_MULTIPLIER : ℚ := 1
def POPULARITY_FACTOR : ℚ := 8/100
def GROUP_SIZE_PENALTY : ℚ := 5/100
def GAME_DAY_MULTIPLIER : ℚ := 3/2

def TRAVEL_TIME_MINUTES : ℚ := 7
def STAY_DURATION_MINUTES : ℚ := 60
def MAX_BARS_IN_ROUTE : ℕ := 5

def MIN_START_HOUR : ℚ := 17
def MAX_START_HOUR : ℚ := 23

def chimys : Bar where
  name := "Chimy's"
  capacity := 200
  popularity := 4
  base_wait := 15
  hours := fun d => match d with
    | .monday | .tuesday | .wednesday | .thursday => some (17, 2)
    | .friday | .saturday => some (16, 2)
    | .sunday => some (18, 0)

def crickets : Bar where
  name := "Cricket's"
  capacity := 180
  popularity := 4
  base_wait := 12
  hours := fun d => match d with
    | .monday | .tuesday | .wednesday | .thursday => some (17, 2)
    | .friday | .saturday => some (16, 2)
    | .sunday => some (18, 0)

def bierHaus : Bar where
  name := "Bier Haus"
  capacity := 150
  popularity := 3
  base_wait := 10
  hours := fun d => match d with
    | .monday | .tuesday | .wednesday | .thursday => some (16, 2)
    | .friday | .saturday => some (15, 2)
    | .sunday => some (17, 0)

def atomic : Bar where
  name := "Atomic"
  capacity := 120
  popularity := 4
  base_wait := 8
  hours := fun d => match d with
    | .monday | .tuesday | .wednesday | .thursday => some (18, 2)
    | .friday | .saturday => some (17, 2)
    | .sunday => some (19, 0)

def barPM : Bar where
  name := "Bar PM"
  capacity := 100
  popularity := 3
  base_wait := 8
  hours := fun d => match d with
    | .monday | .tuesday | .wednesday | .thursday => some (19, 2)
    | .friday | .saturday => some (18, 2)
    | .sunday => none

def misquetes : Bar where
  name := "Misquetes"
  capacity := 140
  popularity := 3
  base_wait := 10
  hours := fun d => match d with
    | .monday | .tuesday | .wednesday | .thursday => some (17, 2)
    | .friday | .saturday => some (16, 2)
    | .sunday => some (18, 0)

def wrecked : Bar where
  name := "Wrecked"
  capacity := 160
  popularity := 3
  base_wait := 10
  hours := fun d => match d with
    | .monday | .tuesday | .wednesday | .thursday => some (17, 2)
    | .friday | .saturday => some (16, 2)
    | .sunday => some (18, 0)

def theLibrary : Bar where
  name := "The Library"
  capacity := 130
  popularity := 3
  base_wait := 8
  hours := fun d => match d with
    | .monday | .tuesday | .wednesday | .thursday => some (17, 2)
    | .friday | .saturday => some (16, 2)
    | .sunday => none

def bashs : Bar where
  name := "Bash's"
  capacity := 170
  popularity := 4
  base_wait := 12
  hours := fun d => match d with
    | .monday | .tuesday | .wednesday | .thursday => some (17, 2)
    | .friday | .saturday => some (16, 2)
    | .sunday => some (18, 0)

def electricAvenue : Bar where
  name := "Electric Avenue"
  capacity := 200
  popularity := 4
  base_wait := 15
  hours := fun d => match d with
    | .monday | .tuesday | .wednesday | .thursday => some (18, 2)
    | .friday | .saturday => some (17, 2)
    | .sunday => none

/-- The `BAR_ROSTER` dictionary, as an insertion-ordered association list. -/
def BAR_ROSTER : List (String × Bar) :=
  [("Chimy's", chimys), ("Cricket's", crickets), ("Bier Haus", bierHaus),
   ("Atomic", atomic), ("Bar PM", barPM), ("Misquetes", misquetes),
   ("Wrecked", wrecked), ("The Library", theLibrary), ("Bash's", bashs),
   ("Electric Avenue", electricAvenue)]

/-- Dictionary lookup `BAR_ROSTER[name]` / membership test `name in BAR_ROSTER`. -/
def rosterLookup (bar_name : String) : Option Bar :=
  (BAR_ROSTER.find? (fun p => p.1 == bar_name)).map Prod.snd

/-- Python 3 `round` on an exact rational: round half to even. -/
def pyRound (x : ℚ) : ℤ :=
  if x - ⌊x⌋ < 1/2 then ⌊x⌋
  else if 1/2 < x - ⌊x⌋ then ⌊x⌋ + 1
  else if ⌊x⌋ % 2 = 0 then ⌊x⌋ else ⌊x⌋ + 1

/-- Zero-padded two-digit rendering, the `f"{n:02d}"` format. -/
def padTwo (n : ℤ) : String :=
  if n < 10 then "0" ++ toString n else toString n

/-- Python `%` with positive divisor 24: result in `[0, 24)`. -/
def pymod24 (x : ℚ) : ℚ := x - 24 * ⌊x / 24⌋

/-- The function `format_time`: decimal hours to an `HH:MM` string.  After the
`% 24` the value is non-negative, so Python's `int` truncation is `Int.floor`. -/
def format_time (hour_float : ℚ) : String :=
  let h := pymod24 hour_float
  let hours := ⌊h⌋
  let minutes := ⌊(h - hours) * 60⌋
  padTwo hours ++ ":" ++ padTwo minutes

/-- The function `is_bar_open`: open-hours check at a raw decimal hour. -/
def is_bar_open (bar_name : String) (hour : ℚ) (day : Day) : Bool :=
  match rosterLookup bar_name with
  | none => false
  | some bar =>
    match bar.hours day with
    | none => false
    | some (open_hour, close_hour) =>
      if close_hour < open_hour then
        decide ((open_hour : ℚ) ≤ hour) || decide (hour < (close_hour : ℚ))
      else
        decide ((open_hour : ℚ) ≤ hour) && decide (hour < (close_hour : ℚ))

/-- The function `calculate_wait_time`. -/
def calculate_wait_time (bar_name : String) (arrival_hour : ℚ) (group_size : ℤ)
    (is_game_day : Bool) : ℤ :=
  match rosterLookup bar_name with
  | none => 15
  | some bar =>
    let wait := (bar.base_wait : ℚ) * BASE_WAIT_MULTIPLIER
    let time_factor : ℚ :=
      if arrival_hour ≥ 22 then 14/10
      else if arrival_hour ≥ 21 then 12/10
      else if arrival_hour ≥ 20 then 11/10
      else 1
    let wait := wait * time_factor
    let wait := wait * (1 + ((bar.popularity : ℚ) - 3) * POPULARITY_FACTOR)
    let wait := wait * (1 + (max 0 (group_size - 2) : ℤ) * GROUP_SIZE_PENALTY)
    let wait := if is_game_day then wait * GAME_DAY_MULTIPLIER else wait
    pyRound wait

/-- One recorded stop of a simulation.  `bar`, `arrival`, `depart`, `wait` are
the four entries of the Python step dictionary; `arrivalH` and `departH`
additionally record the numeric locals `current_hour` and `departure_hour`
from which the two formatted strings are produced. -/
structure RouteStep where
  bar : String
  arrival : String
  depart : String
  wait : ℤ
  arrivalH : ℚ
  departH : ℚ
  deriving DecidableEq, Repr

/-- The result dictionary of `simulate_route` / `optimize_route`. -/
structure SimResult where
  feasible : Bool
  reason : Option String
  total_wait : ℤ
  steps : List RouteStep
  deriving DecidableEq, Repr

/-- Loop body of `simulate_route`: walk the remaining route from the running
`current_hour`.  Aborting returns exactly the Python early-return dictionary;
the travel-time advance happens between consecutive bars only (the value added
after the final bar is never consumed, matching the `i < len(route) - 1`
guard). -/
def simGo (group_size : ℤ) (is_game_day : Bool) (day : Day) :
    List String → ℚ → SimResult
  | [], _ => ⟨true, none, 0, []⟩
  | bar_name :: rest, current_hour =>
    match rosterLookup bar_name with
    | none => ⟨false, some ("Unknown bar: " ++ bar_name), 0, []⟩
    | some _ =>
      if is_bar_open bar_name current_hour day then
        let wait := calculate_wait_time bar_name current_hour group_size is_game_day
        let departure_hour := current_hour + (wait : ℚ) / 60 + STAY_DURATION_MINUTES / 60
        let r := simGo group_size is_game_day day rest
          (departure_hour + TRAVEL_TIME_MINUTES / 60)
        if r.feasible then
          ⟨true, none, wait + r.total_wait,
           ⟨bar_name, format_time current_hour, format_time departure_hour, wait,
            current_hour, departure_hour⟩ :: r.steps⟩
        else r
      else
        ⟨false, some (bar_name ++ " is closed at " ++ format_time current_hour), 0, []⟩

/-- The function `simulate_route`. -/
def simulate_route (route : List String) (start_hour : ℚ) (group_size : ℤ)
    (is_game_day : Bool) (day : Day) : SimResult :=
  simGo group_size is_game_day day route start_hour

/-- All ways of picking one element of a list together with the remaining
elements, in position order. -/
def selects {α : Type*} : List α → List (α × List α)
  | [] => []
  | x :: xs => (x, xs) :: (selects xs).map (fun p => (p.1, x :: p.2))

/-- Fuelled permutation enumerator (fuel = list length). -/
def permsAux {α : Type*} : ℕ → List α → List (List α)
  | 0, _ => [[]]
  | n + 1, l => (selects l).flatMap (fun p => (permsAux n p.2).map (fun q => p.1 :: q))

/-- Permutations of a list in the order `itertools.permutations` yields them:
lexicographic in the picked positions, the input order itself coming first. -/
def permsLex {α : Type*} (l : List α) : List (List α) := permsAux l.length l

/-- Body of the `for perm in permutations(valid_bars)` loop of
`optimize_route`: simulate one permutation and keep it only when feasible and
strictly better than the best seen so far.  `none` as accumulator models
`best_route = None` with `best_wait = inf` (any integer is below infinity). -/
def updateBest (start_hour : ℚ) (group_size : ℤ) (is_game_day : Bool) (day : Day)
    (perm : List String) :
    Option (List String × SimResult) → Option (List String × SimResult)
  | none =>
    if (simulate_route perm start_hour group_size is_game_day day).feasible then
      some (perm, simulate_route perm start_hour group_size is_game_day day)
    else none
  | some (br, bres) =>
    if (simulate_route perm start_hour group_size is_game_day day).feasible
        ∧ (simulate_route perm start_hour group_size is_game_day day).total_wait
          < bres.total_wait then
      some (perm, simulate_route perm start_hour group_size is_game_day day)
    else some (br, bres)

/-- The permutation loop itself: fold `updateBest` over the enumerated
permutations. -/
def searchPerms (start_hour : ℚ) (group_size : ℤ) (is_game_day : Bool) (day : Day) :
    List (List String) → Option (List String × SimResult) →
    Option (List String × SimResult)
  | [], best => best
  | perm :: rest, best =>
    searchPerms start_hour group_size is_game_day day rest
      (updateBest start_hour group_size is_game_day day perm best)

/-- The preprocessing of `optimize_route`: keep the recognised bars in input
order (lines 427-434 of the source), then cap at `MAX_BARS_IN_ROUTE`. -/
def cappedValid (bars : List String) : List String :=
  let valid_bars := bars.filter (fun b => (rosterLookup b).isSome)
  if valid_bars.length > MAX_BARS_IN_ROUTE then valid_bars.take MAX_BARS_IN_ROUTE
  else valid_bars

/-- The function `optimize_route`. -/
def optimize_route (bars : List String) (start_hour : ℚ) (group_size : ℤ)
    (is_game_day : Bool) (day : Day) : Option (List String) × SimResult :=
  if bars = [] then
    (none, ⟨false, some "No bars specified", 0, []⟩)
  else if bars.filter (fun b => (rosterLookup b).isSome) = [] then
    (none, ⟨false, some "No recognized bars", 0, []⟩)
  else
    let valid_bars := cappedValid bars
    if valid_bars.length = 1 then
      let result := simulate_route valid_bars start_hour group_size is_game_day day
      if result.feasible then (some valid_bars, result) else (none, result)
    else
      match searchPerms start_hour group_size is_game_day day (permsLex valid_bars) none with
      | some (best_route, best_result) => (some best_route, best_result)
      | none =>
        let problematic := valid_bars.filter
          (fun b => !(simulate_route [b] start_hour group_size is_game_day day).feasible)
        let reason :=
          if problematic = [] then "No feasible route found"
          else "These bars are closed at that time: " ++ String.intercalate ", " problematic
        (none, ⟨false, some reason, 0, []⟩)

/-- Tiered time-of-day multiplier, abbreviating the nested conditional. -/
def timeFactor (arrival_hour : ℚ) : ℚ :=
  if arrival_hour ≥ 22 then 14/10
  else if arrival_hour ≥ 21 then 12/10
  else if arrival_hour ≥ 20 then 11/10
  else 1

/-- The exact (unrounded) product of `base_wait` and the four multipliers. -/
def waitProduct (b : Bar) (arrival_hour : ℚ) (group_size : ℤ) (is_game_day : Bool) : ℚ :=
  (b.base_wait : ℚ) * timeFactor arrival_hour
    * (1 + ((b.popularity : ℚ) - 3) * (8/100))
    * (1 + (max 0 (group_size - 2) : ℤ) * (5/100))
    * (if is_game_day then 3/2 else 1)

/-- Running value of the local `current_hour` after the whole list has been
visited: each stop advances it by the wait, the stay and the travel time.
Auxiliary (proof-side) definition used to name the arrival hour at which a
later stop is reached. -/
def endHour (group_size : ℤ) (is_game_day : Bool) : List String → ℚ → ℚ
  | [], cur => cur
  | b :: rest, cur =>
    endHour group_size is_game_day rest
      (cur + (calculate_wait_time b cur group_size is_game_day : ℚ) / 60
        + STAY_DURATION_MINUTES / 60 + TRAVEL_TIME_MINUTES / 60)

/-- Invariant of the permutation-search loop: after the permutations of `pre`
have been examined, the accumulator holds nothing when no member of `pre`
simulated feasibly, and otherwise holds the first feasible member of `pre`
attaining the minimum `total_wait`, paired with its simulation result. -/
def goodBest (s : ℚ) (g : ℤ) (e : Bool) (d : Day) (pre : List (List String)) :
    Option (List String × SimResult) → Prop
  | none => ∀ q ∈ pre, (simulate_route q s g e d).feasible = false
  | some (br, bres) =>
      bres = simulate_route br s g e d ∧ bres.feasible = true ∧
      (∀ q ∈ pre, (simulate_route q s g e d).feasible = true →
        bres.total_wait ≤ (simulate_route q s g e d).total_wait) ∧
      (pre.filter (fun p => (simulate_route p s g e d).feasible
          && decide ((simulate_route p s g e d).total_wait = bres.total_wait))).head?
        = some br

/-!
## Helper lemmas about `pyRound`
-/

theorem pyRound_ge_floor (x : ℚ) : ⌊x⌋ ≤ pyRound x := by
  unfold pyRound
  split_ifs <;> omega

theorem pyRound_le_floor_add_one (x : ℚ) : pyRound x ≤ ⌊x⌋ + 1 := by
  unfold pyRound
  split_ifs <;> omega

theorem pyRound_mono {x y : ℚ} (h : x ≤ y) : pyRound x ≤ pyRound y := by
  rcases lt_or_eq_of_le (Int.floor_le_floor h) with hf | hf
  · calc pyRound x ≤ ⌊x⌋ + 1 := pyRound_le_floor_add_one x
    _ ≤ ⌊y⌋ := by omega
    _ ≤ pyRound y := pyRound_ge_floor y
  · unfold pyRound
    rw [← hf]
    have hfx : (⌊x⌋ : ℚ) ≤ x := Int.floor_le x
    split_ifs with h1 h2 h3 h4 h5 h6 h7 h8 h9 h10 h11 h12 h13 h14 <;>
      first
        | omega
        | (exfalso; linarith)

theorem pyRound_one_le {x : ℚ} (h : 1 ≤ x) : 1 ≤ pyRound x := by
  have h1 : (1 : ℤ) ≤ ⌊x⌋ := by exact_mod_cast Int.le_floor.mpr (by exact_mod_cast h)
  have := pyRound_ge_floor x
  omega

/-!
## Facts about the roster data
-/

theorem mem_roster_of_lookup {n : String} {b : Bar} (h : rosterLookup n = some b) :
    ∃ p ∈ BAR_ROSTER, p.2 = b := by
  unfold rosterLookup at h
  rcases ho : BAR_ROSTER.find? (fun p => p.1 == n) with _ | p
  · rw [ho] at h; simp at h
  · rw [ho] at h
    exact ⟨p, List.mem_of_find?_eq_some ho, by simpa using h⟩

/-- Every bar in the roster has `base_wait ≥ 8` and `popularity ≥ 3`. -/
theorem roster_bar_facts {n : String} {b : Bar} (h : rosterLookup n = some b) :
    8 ≤ b.base_wait ∧ 3 ≤ b.popularity := by
  obtain ⟨p, hp, rfl⟩ := mem_roster_of_lookup h
  simp only [BAR_ROSTER, List.mem_cons, List.not_mem_nil, or_false] at hp
  rcases hp with h' | h' | h' | h' | h' | h' | h' | h' | h' | h' <;>
    (subst h'; constructor <;> norm_num
      [chimys, crickets, bierHaus, atomic, barPM, misquetes, wrecked, theLibrary,
       bashs, electricAvenue])

/-!
## The wait-time formula
-/

theorem calculate_wait_time_eq_pyRound {n : String} {b : Bar}
    (h : rosterLookup n = some b) (hour : ℚ) (g : ℤ) (e : Bool) :
    calculate_wait_time n hour g e = pyRound (waitProduct b hour g e) := by
  unfold calculate_wait_time waitProduct timeFactor
  rw [h]
  unfold BASE_WAIT_MULTIPLIER POPULARITY_FACTOR GROUP_SIZE_PENALTY GAME_DAY_MULTIPLIER
  cases e <;> simp

theorem one_le_timeFactor (hour : ℚ) : 1 ≤ timeFactor hour := by
  unfold timeFactor
  split_ifs <;> norm_num

theorem waitProduct_ge_eight {n : String} {b : Bar} (h : rosterLookup n = some b)
    (hour : ℚ) (g : ℤ) (e : Bool) : 8 ≤ waitProduct b hour g e := by
  obtain ⟨hbw, hpop⟩ := roster_bar_facts h
  unfold waitProduct
  have h0 : (8 : ℚ) ≤ (b.base_wait : ℚ) := by exact_mod_cast hbw
  have h1 : 1 ≤ timeFactor hour := one_le_timeFactor hour
  have h2 : 1 ≤ 1 + ((b.popularity : ℚ) - 3) * (8/100) := by
    have : (3 : ℚ) ≤ (b.popularity : ℚ) := by exact_mod_cast hpop
    nlinarith
  have h3 : 1 ≤ 1 + ((max 0 (g - 2) : ℤ) : ℚ) * (5/100) := by
    have : (0 : ℚ) ≤ ((max 0 (g - 2) : ℤ) : ℚ) := by
      have : (0 : ℤ) ≤ max 0 (g - 2) := le_max_left _ _
      exact_mod_cast this
    nlinarith
  have h4 : 1 ≤ (if e then (3 : ℚ)/2 else 1) := by split_ifs <;> norm_num
  have n0 : (0 : ℚ) ≤ (b.base_wait : ℚ) := by linarith
  have p1 : (8 : ℚ) ≤ (b.base_wait : ℚ) * timeFactor hour :=
    le_trans h0 (le_mul_of_one_le_right n0 h1)
  have p2 : (8 : ℚ) ≤ (b.base_wait : ℚ) * timeFactor hour
      * (1 + ((b.popularity : ℚ) - 3) * (8/100)) :=
    le_trans p1 (le_mul_of_one_le_right (by linarith) h2)
  have p3 : (8 : ℚ) ≤ (b.base_wait : ℚ) * timeFactor hour
      * (1 + ((b.popularity : ℚ) - 3) * (8/100))
      * (1 + ((max 0 (g - 2) : ℤ) : ℚ) * (5/100)) :=
    le_trans p2 (le_mul_of_one_le_right (by linarith) h3)
  exact le_trans p3 (le_mul_of_one_le_right (by linarith) h4)

theorem one_le_calculate_wait_time (n : String) (hour : ℚ) (g : ℤ) (e : Bool) :
    1 ≤ calculate_wait_time n hour g e := by
  rcases hl : rosterLookup n with _ | b
  · unfold calculate_wait_time
    rw [hl]
    norm_num
  · rw [calculate_wait_time_eq_pyRound hl]
    exact pyRound_one_le (by linarith [waitProduct_ge_eight hl hour g e])

theorem waitProduct_mono_group {n : String} {b : Bar} (h : rosterLookup n = some b)
    (hour : ℚ) (e : Bool) {g1 g2 : ℤ} (hg : g1 ≤ g2) :
    waitProduct b hour g1 e ≤ waitProduct b hour g2 e := by
  obtain ⟨hbw, hpop⟩ := roster_bar_facts h
  unfold waitProduct
  have hA : (0 : ℚ) ≤ (b.base_wait : ℚ) * timeFactor hour
      * (1 + ((b.popularity : ℚ) - 3) * (8/100)) := by
    have h0 : (0 : ℚ) ≤ (b.base_wait : ℚ) := by exact_mod_cast le_trans (by norm_num) hbw
    have h1 : (0 : ℚ) ≤ timeFactor hour := le_trans (by norm_num) (one_le_timeFactor hour)
    have h2 : (0 : ℚ) ≤ 1 + ((b.popularity : ℚ) - 3) * (8/100) := by
      have : (3 : ℚ) ≤ (b.popularity : ℚ) := by exact_mod_cast hpop
      nlinarith
    positivity
  have hgf : (1 + ((max 0 (g1 - 2) : ℤ) : ℚ) * (5/100))
      ≤ (1 + ((max 0 (g2 - 2) : ℤ) : ℚ) * (5/100)) := by
    have : (max 0 (g1 - 2) : ℤ) ≤ max 0 (g2 - 2) := by omega
    have : ((max 0 (g1 - 2) : ℤ) : ℚ) ≤ ((max 0 (g2 - 2) : ℤ) : ℚ) := by exact_mod_cast this
    linarith
  have hef : (0 : ℚ) ≤ (if e then (3 : ℚ)/2 else 1) := by split_ifs <;> norm_num
  exact mul_le_mul_of_nonneg_right (mul_le_mul_of_nonneg_left hgf hA) hef

/-!
## Lemmas about the permutation enumeration
-/

theorem selects_length {α : Type*} : ∀ (l : List α) (p : α × List α),
    p ∈ selects l → p.2.length + 1 = l.length
  | [], p, h => by simp [selects] at h
  | x :: xs, p, h => by
    simp only [selects, List.mem_cons, List.mem_map] at h
    rcases h with rfl | ⟨q, hq, rfl⟩
    · simp
    · have := selects_length xs q hq
      simp only [List.length_cons]
      omega

theorem selects_perm {α : Type*} : ∀ (l : List α) (p : α × List α),
    p ∈ selects l → l.Perm (p.1 :: p.2)
  | [], p, h => by simp [selects] at h
  | x :: xs, p, h => by
    simp only [selects, List.mem_cons, List.mem_map] at h
    rcases h with rfl | ⟨q, hq, rfl⟩
    · exact List.Perm.refl _
    · exact (List.Perm.cons x (selects_perm xs q hq)).trans (List.Perm.swap q.1 x q.2)

theorem mem_selects_of_mem {α : Type*} [DecidableEq α] : ∀ (l : List α) (a : α),
    a ∈ l → (a, l.erase a) ∈ selects l
  | [], a, h => by simp at h
  | x :: xs, a, h => by
    by_cases hax : a = x
    · subst hax
      simp [selects, List.erase_cons_head]
    · have hmem : a ∈ xs := by
        rcases List.mem_cons.mp h with h' | h'
        · exact absurd h' hax
        · exact h'
      have := mem_selects_of_mem xs a hmem
      simp only [selects, List.mem_cons, List.mem_map]
      right
      refine ⟨(a, xs.erase a), this, ?_⟩
      rw [List.erase_cons_tail]
      simp [beq_iff_eq]
      exact fun h' => hax h'.symm

theorem permsAux_head {α : Type*} : ∀ (l : List α), (permsAux l.length l).head? = some l
  | [] => rfl
  | x :: xs => by
    have ih := permsAux_head xs
    simp only [List.length_cons, permsAux, selects, List.flatMap_cons, List.head?_append,
      List.head?_map, ih, Option.map_some', Option.or]

/-- The first permutation enumerated is the input order itself. -/
theorem permsLex_head {α : Type*} (l : List α) : (permsLex l).head? = some l :=
  permsAux_head l

theorem mem_permsAux_of_perm {α : Type*} [DecidableEq α] :
    ∀ (n : ℕ) (l l' : List α), l.length = n → l'.Perm l → l' ∈ permsAux n l
  | 0, l, l', hn, hp => by
    have hl : l = [] := List.length_eq_zero.mp hn
    subst hl
    have := hp.eq_nil
    subst this
    simp [permsAux]
  | n + 1, l, l', hn, hp => by
    cases l' with
    | nil =>
      have := hp.length_eq
      simp at this
      omega
    | cons y ys =>
      have hy : y ∈ l := hp.mem_iff.mp (List.mem_cons_self y ys)
      have hsel := mem_selects_of_mem l y hy
      have hys : ys.Perm (l.erase y) :=
        (hp.trans (List.perm_cons_erase hy)).cons_inv
      have hlen : (l.erase y).length = n := by
        have := List.length_erase_of_mem hy
        omega
      have hmem := mem_permsAux_of_perm n (l.erase y) ys hlen hys
      simp only [permsAux, List.mem_flatMap]
      exact ⟨(y, l.erase y), hsel, List.mem_map.mpr ⟨ys, hmem, rfl⟩⟩

theorem perm_of_mem_permsAux {α : Type*} :
    ∀ (n : ℕ) (l q : List α), l.length = n → q ∈ permsAux n l → q.Perm l
  | 0, l, q, hn, hq => by
    have hl : l = [] := List.length_eq_zero.mp hn
    subst hl
    simp [permsAux] at hq
    subst hq
    exact List.Perm.refl _
  | n + 1, l, q, hn, hq => by
    simp only [permsAux, List.mem_flatMap, List.mem_map] at hq
    obtain ⟨p, hp, q', hq', rfl⟩ := hq
    have hlen : p.2.length = n := by
      have := selects_length l p hp
      omega
    have := perm_of_mem_permsAux n p.2 q' hlen hq'
    exact (this.cons p.1).trans (selects_perm l p hp).symm

/-- Membership in the enumeration is exactly being a permutation of the input. -/
theorem mem_permsLex_iff {α : Type*} [DecidableEq α] {l q : List α} :
    q ∈ permsLex l ↔ q.Perm l :=
  ⟨perm_of_mem_permsAux l.length l q rfl, mem_permsAux_of_perm l.length l q rfl⟩

/-!
## The permutation-search loop
-/

theorem goodBest_update {s : ℚ} {g : ℤ} {e : Bool} {d : Day}
    {pre : List (List String)} {best : Option (List String × SimResult)}
    (h : goodBest s g e d pre best) (p : List String) :
    goodBest s g e d (pre ++ [p]) (updateBest s g e d p best) := by
  cases best with
  | none =>
    by_cases hp : (simulate_route p s g e d).feasible = true
    · rw [updateBest, if_pos hp]
      refine ⟨rfl, hp, ?_, ?_⟩
      · intro q hq hfq
        rcases List.mem_append.mp hq with hq' | hq'
        · exact absurd hfq (by simp [h q hq'])
        · rcases List.mem_singleton.mp hq' with rfl
          exact le_refl _
      · rw [List.filter_append]
        have h1 : pre.filter (fun q => (simulate_route q s g e d).feasible
            && decide ((simulate_route q s g e d).total_wait
              = (simulate_route p s g e d).total_wait)) = [] := by
          rw [List.filter_eq_nil_iff]
          intro q hq
          simp [h q hq]
        rw [h1]
        simp [hp]
    · rw [updateBest, if_neg hp]
      intro q hq
      rcases List.mem_append.mp hq with hq' | hq'
      · exact h q hq'
      · rcases List.mem_singleton.mp hq' with rfl
        exact Bool.not_eq_true _ ▸ (eq_false_of_ne_true hp)
  | some pair =>
    obtain ⟨br, bres⟩ := pair
    obtain ⟨h1, h2, h3, h4⟩ := h
    by_cases hc : (simulate_route p s g e d).feasible = true
        ∧ (simulate_route p s g e d).total_wait < bres.total_wait
    · obtain ⟨hf, hlt⟩ := hc
      rw [updateBest, if_pos ⟨hf, hlt⟩]
      refine ⟨rfl, hf, ?_, ?_⟩
      · intro q hq hfq
        rcases List.mem_append.mp hq with hq' | hq'
        · exact le_trans (le_of_lt hlt) (h3 q hq' hfq)
        · rcases List.mem_singleton.mp hq' with rfl
          exact le_refl _
      · rw [List.filter_append]
        have h5 : pre.filter (fun q => (simulate_route q s g e d).feasible
            && decide ((simulate_route q s g e d).total_wait
              = (simulate_route p s g e d).total_wait)) = [] := by
          rw [List.filter_eq_nil_iff]
          intro q hq
          by_cases hfq : (simulate_route q s g e d).feasible = true
          · have := h3 q hq hfq
            simp only [hfq, Bool.true_and, decide_eq_true_eq]
            omega
          · simp only [Bool.not_eq_true] at hfq
            simp [hfq]
        rw [h5]
        simp [hf]
    · rw [updateBest, if_neg hc]
      refine ⟨h1, h2, ?_, ?_⟩
      · intro q hq hfq
        rcases List.mem_append.mp hq with hq' | hq'
        · exact h3 q hq' hfq
        · rcases List.mem_singleton.mp hq' with rfl
          rcases Decidable.not_and_iff_or_not.mp hc with hc' | hc'
          · exact absurd hfq hc'
          · omega
      · rw [List.filter_append, List.head?_append, h4]
        rfl

theorem searchPerms_goodBest {s : ℚ} {g : ℤ} {e : Bool} {d : Day} :
    ∀ (ps pre : List (List String)) (best : Option (List String × SimResult)),
    goodBest s g e d pre best →
    goodBest s g e d (pre ++ ps) (searchPerms s g e d ps best)
  | [], pre, best, h => by simpa [searchPerms] using h
  | p :: rest, pre, best, h => by
    have hrec := searchPerms_goodBest rest (pre ++ [p]) _ (goodBest_update h p)
    rw [searchPerms]
    simpa using hrec

/-!
## Structural lemmas about the simulation walk
-/

theorem simGo_cons_unknown {g : ℤ} {e : Bool} {d : Day} {b : String}
    {rest : List String} {cur : ℚ} (hl : rosterLookup b = none) :
    simGo g e d (b :: rest) cur = ⟨false, some ("Unknown bar: " ++ b), 0, []⟩ := by
  simp only [simGo, hl]

theorem simGo_cons_closed {g : ℤ} {e : Bool} {d : Day} {b : String} {bar : Bar}
    {rest : List String} {cur : ℚ} (hl : rosterLookup b = some bar)
    (ho : is_bar_open b cur d = false) :
    simGo g e d (b :: rest) cur
      = ⟨false, some (b ++ " is closed at " ++ format_time cur), 0, []⟩ := by
  simp only [simGo, hl, ho, Bool.false_eq_true, if_false]

theorem simGo_cons_open {g : ℤ} {e : Bool} {d : Day} {b : String} {bar : Bar}
    {rest : List String} {cur : ℚ} (hl : rosterLookup b = some bar)
    (ho : is_bar_open b cur d = true) :
    simGo g e d (b :: rest) cur
      = (if (simGo g e d rest (cur + (calculate_wait_time b cur g e : ℚ) / 60
              + STAY_DURATION_MINUTES / 60 + TRAVEL_TIME_MINUTES / 60)).feasible then
          ⟨true, none,
            calculate_wait_time b cur g e
              + (simGo g e d rest (cur + (calculate_wait_time b cur g e : ℚ) / 60
                  + STAY_DURATION_MINUTES / 60 + TRAVEL_TIME_MINUTES / 60)).total_wait,
            ⟨b, format_time cur,
              format_time (cur + (calculate_wait_time b cur g e : ℚ) / 60
                + STAY_DURATION_MINUTES / 60),
              calculate_wait_time b cur g e, cur,
              cur + (calculate_wait_time b cur g e : ℚ) / 60
                + STAY_DURATION_MINUTES / 60⟩
              :: (simGo g e d rest (cur + (calculate_wait_time b cur g e : ℚ) / 60
                  + STAY_DURATION_MINUTES / 60 + TRAVEL_TIME_MINUTES / 60)).steps⟩
        else simGo g e d rest (cur + (calculate_wait_time b cur g e : ℚ) / 60
          + STAY_DURATION_MINUTES / 60 + TRAVEL_TIME_MINUTES / 60)) := by
  simp only [simGo, hl, ho, if_true]

theorem simGo_append {g : ℤ} {e : Bool} {d : Day} :
    ∀ (pre : List String) (rest : List String) (cur : ℚ),
    (simGo g e d pre cur).feasible = true →
    (simGo g e d rest (endHour g e pre cur)).feasible = false →
    simGo g e d (pre ++ rest) cur = simGo g e d rest (endHour g e pre cur)
  | [], rest, cur, _, _ => rfl
  | b :: pre, rest, cur, hf, hr => by
    rcases hl : rosterLookup b with _ | bar
    · rw [simGo_cons_unknown hl] at hf
      simp at hf
    · rcases ho : is_bar_open b cur d with _ | _
      · rw [simGo_cons_closed hl ho] at hf
        simp at hf
      · rw [simGo_cons_open hl ho] at hf
        have hrf : (simGo g e d pre (cur + (calculate_wait_time b cur g e : ℚ) / 60
            + STAY_DURATION_MINUTES / 60 + TRAVEL_TIME_MINUTES / 60)).feasible = true := by
          by_contra hc
          rw [if_neg hc] at hf
          exact hc hf
        have hend : endHour g e (b :: pre) cur
            = endHour g e pre (cur + (calculate_wait_time b cur g e : ℚ) / 60
              + STAY_DURATION_MINUTES / 60 + TRAVEL_TIME_MINUTES / 60) := rfl
        rw [hend] at hr
        have ih := simGo_append pre rest _ hrf hr
        have hne : ¬(simGo g e d rest
            (endHour g e pre (cur + (calculate_wait_time b cur g e : ℚ) / 60
              + STAY_DURATION_MINUTES / 60
              + TRAVEL_TIME_MINUTES / 60))).feasible = true := by
          rw [hr]
          decide
        rw [List.cons_append, simGo_cons_open hl ho, ih, if_neg hne, hend]

theorem simGo_step_invariants {g : ℤ} {e : Bool} {d : Day} :
    ∀ (route : List String) (cur : ℚ),
    (simGo g e d route cur).feasible = true →
    (∀ st, (simGo g e d route cur).steps.head? = some st → st.arrivalH = cur) ∧
    (∀ i st, (simGo g e d route cur).steps[i]? = some st →
      st.departH = st.arrivalH + (st.wait : ℚ) / 60 + STAY_DURATION_MINUTES / 60 ∧
      ∀ st', (simGo g e d route cur).steps[i + 1]? = some st' →
        st'.arrivalH = st.departH + TRAVEL_TIME_MINUTES / 60)
  | [], cur, _ => by
    constructor
    · intro st hst
      simp [simGo] at hst
    · intro i st hst
      simp [simGo] at hst
  | b :: rest, cur, hf => by
    rcases hl : rosterLookup b with _ | bar
    · rw [simGo_cons_unknown hl] at hf
      simp at hf
    · rcases ho : is_bar_open b cur d with _ | _
      · rw [simGo_cons_closed hl ho] at hf
        simp at hf
      · rw [simGo_cons_open hl ho] at hf
        have hrf : (simGo g e d rest (cur + (calculate_wait_time b cur g e : ℚ) / 60
            + STAY_DURATION_MINUTES / 60 + TRAVEL_TIME_MINUTES / 60)).feasible = true := by
          by_contra hc
          rw [if_neg hc] at hf
          exact hc hf
        have ih := simGo_step_invariants rest
          (cur + (calculate_wait_time b cur g e : ℚ) / 60
            + STAY_DURATION_MINUTES / 60 + TRAVEL_TIME_MINUTES / 60) hrf
        rw [simGo_cons_open hl ho, if_pos hrf]
        constructor
        · intro st hst
          simp only [List.head?_cons, Option.some_inj] at hst
          rw [← hst]
        · intro i st hst
          cases i with
          | zero =>
            simp only [List.getElem?_cons_zero, Option.some_inj] at hst
            subst hst
            refine ⟨by push_cast; ring, ?_⟩
            intro st' hst'
            simp only [List.getElem?_cons_succ, List.getElem?_eq_some_iff] at hst'
            have hh : (simGo g e d rest (cur + (calculate_wait_time b cur g e : ℚ) / 60
                + STAY_DURATION_MINUTES / 60 + TRAVEL_TIME_MINUTES / 60)).steps.head?
                  = some st' := by
              obtain ⟨hlt, hget⟩ := hst'
              rw [List.head?_eq_getElem?, List.getElem?_eq_getElem hlt, hget]
            exact ih.1 st' hh
          | succ j =>
            simp only [List.getElem?_cons_succ] at hst
            obtain ⟨hd, hnext⟩ := ih.2 j st hst
            refine ⟨hd, ?_⟩
            intro st' hst'
            simp only [List.getElem?_cons_succ] at hst'
            exact hnext st' hst'

theorem simGo_steps_wait_ge_one {g : ℤ} {e : Bool} {d : Day} :
    ∀ (route : List String) (cur : ℚ) (st : RouteStep),
    st ∈ (simGo g e d route cur).steps → 1 ≤ st.wait
  | [], _, st, hst => by simp [simGo] at hst
  | b :: rest, cur, st, hst => by
    rcases hl : rosterLookup b with _ | bar
    · rw [simGo_cons_unknown hl] at hst
      simp at hst
    · rcases ho : is_bar_open b cur d with _ | _
      · rw [simGo_cons_closed hl ho] at hst
        simp at hst
      · rw [simGo_cons_open hl ho] at hst
        by_cases hrf : (simGo g e d rest (cur + (calculate_wait_time b cur g e : ℚ) / 60
            + STAY_DURATION_MINUTES / 60 + TRAVEL_TIME_MINUTES / 60)).feasible = true
        · rw [if_pos hrf] at hst
          rcases List.mem_cons.mp hst with rfl | hst'
          · exact one_le_calculate_wait_time b cur g e
          · exact simGo_steps_wait_ge_one rest _ st hst'
        · rw [if_neg hrf] at hst
          exact simGo_steps_wait_ge_one rest _ st hst

/-!
## Claim theorems
-/

/-- C4: for every catalog venue, arrival hour, group size and event flag, the
computed wait equals `max(1, round(base_wait * time_factor * (1 + (popularity
- 3) * 0.08) * (1 + max(0, group_size - 2) * 0.05) * (1.5 if event day else
1.0)))` with the tiered time factor (1.4 for hour ≥ 22, 1.2 on [21,22), 1.1 on
[20,21), 1.0 below 20), it is always ≥ 1, and every step of every simulated
route records a wait ≥ 1. -/
theorem wait_formula_and_min {n : String} {bar : Bar} (hl : rosterLookup n = some bar)
    (hour : ℚ) (g : ℤ) (e : Bool) :
    (calculate_wait_time n hour g e
      = max 1 (pyRound ((bar.base_wait : ℚ)
          * (if hour ≥ 22 then 14/10 else if hour ≥ 21 then 12/10
             else if hour ≥ 20 then 11/10 else 1)
          * (1 + ((bar.popularity : ℚ) - 3) * (8/100))
          * (1 + (max 0 (g - 2) : ℤ) * (5/100))
          * (if e then (3 : ℚ)/2 else 1))))
    ∧ 1 ≤ calculate_wait_time n hour g e
    ∧ ∀ (route : List String) (s : ℚ) (g' : ℤ) (e' : Bool) (d : Day),
        ∀ st ∈ (simulate_route route s g' e' d).steps, 1 ≤ st.wait := by
  refine ⟨?_, one_le_calculate_wait_time n hour g e, ?_⟩
  · rw [calculate_wait_time_eq_pyRound hl]
    have hwp : waitProduct bar hour g e
        = (bar.base_wait : ℚ)
          * (if hour ≥ 22 then 14/10 else if hour ≥ 21 then 12/10
             else if hour ≥ 20 then 11/10 else 1)
          * (1 + ((bar.popularity : ℚ) - 3) * (8/100))
          * (1 + (max 0 (g - 2) : ℤ) * (5/100))
          * (if e then (3 : ℚ)/2 else 1) := rfl
    rw [← hwp, max_eq_right]
    exact pyRound_one_le (by linarith [waitProduct_ge_eight hl hour g e])
  · intro route s g' e' d st hst
    exact simGo_steps_wait_ge_one route s st hst

/-- C10: for every catalog venue, arrival hour and event flag, the computed
wait is monotonically non-decreasing in the group size. -/
theorem wait_monotone_in_group_size {n : String} {bar : Bar}
    (hl : rosterLookup n = some bar) (hour : ℚ) (e : Bool) {g1 g2 : ℤ}
    (hg : g1 ≤ g2) :
    calculate_wait_time n hour g1 e ≤ calculate_wait_time n hour g2 e := by
  rw [calculate_wait_time_eq_pyRound hl, calculate_wait_time_eq_pyRound hl]
  exact pyRound_mono (waitProduct_mono_group hl hour e hg)

/-- C9: `optimize_route` on an empty venue list returns `(none, result)` with
`feasible = false`, `total_wait = 0`, empty steps and the reason
`"No bars specified"`, which differs from the `"No recognized bars"` reason
used for a non-empty list without catalog venues. -/
theorem optimize_empty_input (s : ℚ) (g : ℤ) (e : Bool) (d : Day) :
    optimize_route [] s g e d
      = (none, ⟨false, some "No bars specified", 0, []⟩)
    ∧ "No bars specified" ≠ "No recognized bars" := by
  constructor
  · rw [optimize_route, if_pos rfl]
  · decide

theorem cappedValid_eq_take (bars : List String) :
    cappedValid bars
      = (bars.filter (fun b => (rosterLookup b).isSome)).take MAX_BARS_IN_ROUTE := by
  simp only [cappedValid]
  split_ifs with h
  · rfl
  · rw [List.take_of_length_le (by omega)]

theorem cappedValid_all_valid (bars : List String) :
    ∀ b ∈ cappedValid bars, (rosterLookup b).isSome := by
  intro b hb
  rw [cappedValid_eq_take] at hb
  have := List.mem_of_mem_take hb
  exact (List.mem_filter.mp this).2

theorem cappedValid_idem (bars : List String) :
    cappedValid (cappedValid bars) = cappedValid bars := by
  have hfilter : (cappedValid bars).filter (fun b => (rosterLookup b).isSome)
      = cappedValid bars :=
    List.filter_eq_self.mpr (cappedValid_all_valid bars)
  have hlen : (cappedValid bars).length ≤ MAX_BARS_IN_ROUTE := by
    rw [cappedValid_eq_take]
    simp [List.length_take]
  rw [cappedValid_eq_take (cappedValid bars), hfilter, List.take_of_length_le hlen]

theorem cappedValid_ne_nil {bars : List String}
    (h : bars.filter (fun b => (rosterLookup b).isSome) ≠ []) :
    cappedValid bars ≠ [] := by
  rw [cappedValid_eq_take]
  intro hc
  rcases hf : bars.filter (fun b => (rosterLookup b).isSome) with _ | ⟨x, t⟩
  · exact h hf
  · rw [hf] at hc
    simp [MAX_BARS_IN_ROUTE] at hc

/-- C3 (amended): `optimize_route` filters the input to catalog venues
preserving order and multiplicity (no deduplication), caps at the first
`MAX_BARS_IN_ROUTE = 5` of them, returns the `"No recognized bars"` diagnostic
without simulating when nothing survives the filter, and behaves on any input
exactly as on its filtered-and-capped prefix. -/
theorem optimize_filter_cap (bars : List String) (s : ℚ) (g : ℤ) (e : Bool) (d : Day) :
    (cappedValid bars
      = (bars.filter (fun b => (rosterLookup b).isSome)).take MAX_BARS_IN_ROUTE)
    ∧ (bars ≠ [] → bars.filter (fun b => (rosterLookup b).isSome) = [] →
        optimize_route bars s g e d
          = (none, ⟨false, some "No recognized bars", 0, []⟩))
    ∧ (bars.filter (fun b => (rosterLookup b).isSome) ≠ [] →
        optimize_route bars s g e d = optimize_route (cappedValid bars) s g e d) := by
  refine ⟨cappedValid_eq_take bars, ?_, ?_⟩
  · intro hb hf
    rw [optimize_route, if_neg hb, if_pos hf]
  · intro hf
    have hb : bars ≠ [] := by
      intro hb
      subst hb
      exact hf rfl
    have hcv : cappedValid bars ≠ [] := cappedValid_ne_nil hf
    have hfilter : (cappedValid bars).filter (fun b => (rosterLookup b).isSome)
        = cappedValid bars :=
      List.filter_eq_self.mpr (cappedValid_all_valid bars)
    have hff : ¬((cappedValid bars).filter (fun b => (rosterLookup b).isSome) = []) := by
      rw [hfilter]
      exact hcv
    simp only [optimize_route, if_neg hb, if_neg hcv, if_neg hf, if_neg hff,
      cappedValid_idem]

/-- C8 (amended): the core applies no clamping; the group size reaches the
wait computation exactly as passed.  For a single recognised open venue the
whole result is expressed by `calculate_wait_time` at the given `group_size`
(the constants `MIN_START_HOUR`/`MAX_START_HOUR` are never consulted). -/
theorem optimize_group_size_pass_through {b : String} {bar : Bar}
    (hl : rosterLookup b = some bar) {s : ℚ} {d : Day}
    (ho : is_bar_open b s d = true) (g : ℤ) (e : Bool) :
    optimize_route [b] s g e d
      = (some [b],
         ⟨true, none, calculate_wait_time b s g e,
          [⟨b, format_time s,
            format_time (s + (calculate_wait_time b s g e : ℚ) / 60 + 1),
            calculate_wait_time b s g e, s,
            s + (calculate_wait_time b s g e : ℚ) / 60 + 1⟩]⟩) := by
  have hstay : STAY_DURATION_MINUTES / 60 = (1 : ℚ) := by
    norm_num [STAY_DURATION_MINUTES]
  have hb : ([b] : List String) ≠ [] := by simp
  have hfil : ([b] : List String).filter (fun x => (rosterLookup x).isSome) = [b] := by
    simp [hl]
  have hcv : cappedValid [b] = [b] := by
    rw [cappedValid_eq_take, hfil]
    simp [MAX_BARS_IN_ROUTE]
  have hsim : simulate_route [b] s g e d
      = ⟨true, none, calculate_wait_time b s g e,
         [⟨b, format_time s,
           format_time (s + (calculate_wait_time b s g e : ℚ) / 60 + 1),
           calculate_wait_time b s g e, s,
           s + (calculate_wait_time b s g e : ℚ) / 60 + 1⟩]⟩ := by
    rw [simulate_route, simGo_cons_open hl ho, hstay]
    simp [simGo]
  rw [optimize_route, if_neg hb,
    if_neg (show ¬(([b] : List String).filter (fun x => (rosterLookup x).isSome) = [])
      from by rw [hfil]; exact hb)]
  simp [hcv, hsim]

/-- C5 (amended): when at least two venues survive preprocessing and no
permutation is feasible, `optimize_route` re-simulates each venue individually
and returns `(none, diagnostic)` whose reason lists exactly the individually
infeasible venues as `"These bars are closed at that time: …"`, or the generic
`"No feasible route found"` when none is; when exactly one venue survives and
it is infeasible, the venue's own simulation result (reason
`"{venue} is closed at {time}"`) is returned instead.  All outcomes are
ordinary return values of the total function. -/
theorem optimize_no_feasible_diagnostic (bars : List String) (s : ℚ) (g : ℤ)
    (e : Bool) (d : Day) :
    (2 ≤ (cappedValid bars).length →
      (∀ p ∈ permsLex (cappedValid bars), (simulate_route p s g e d).feasible = false) →
      optimize_route bars s g e d
        = (none, ⟨false,
            some (if (cappedValid bars).filter
                (fun b => !(simulate_route [b] s g e d).feasible) = []
              then "No feasible route found"
              else "These bars are closed at that time: "
                ++ String.intercalate ", " ((cappedValid bars).filter
                    (fun b => !(simulate_route [b] s g e d).feasible))),
            0, []⟩))
    ∧ ((cappedValid bars).length = 1 →
        (simulate_route (cappedValid bars) s g e d).feasible = false →
        optimize_route bars s g e d = (none, simulate_route (cappedValid bars) s g e d)) := by
  constructor
  · intro hlen hall
    have hcv : cappedValid bars ≠ [] := by
      intro hc
      rw [hc] at hlen
      simp at hlen
    have hfil : bars.filter (fun b => (rosterLookup b).isSome) ≠ [] := by
      intro hc
      apply hcv
      rw [cappedValid_eq_take, hc]
      rfl
    have hb : bars ≠ [] := by
      intro hb
      subst hb
      exact hfil rfl
    have hsp : searchPerms s g e d (permsLex (cappedValid bars)) none = none := by
      rcases hout : searchPerms s g e d (permsLex (cappedValid bars)) none with _ | pair
      · rfl
      · exfalso
        have hinv := @searchPerms_goodBest s g e d (permsLex (cappedValid bars)) [] none
          (fun q hq => absurd hq (List.not_mem_nil q))
        rw [hout] at hinv
        simp only [List.nil_append] at hinv
        obtain ⟨br, bres⟩ := pair
        obtain ⟨_, _, _, h4⟩ := hinv
        rcases hfl : (permsLex (cappedValid bars)).filter
            (fun p => (simulate_route p s g e d).feasible
              && decide ((simulate_route p s g e d).total_wait = bres.total_wait))
          with _ | ⟨x, t⟩
        · rw [hfl] at h4
          exact absurd h4 (by simp)
        · rw [hfl] at h4
          simp only [List.head?_cons, Option.some_inj] at h4
          have hmem : br ∈ (permsLex (cappedValid bars)).filter
              (fun p => (simulate_route p s g e d).feasible
                && decide ((simulate_route p s g e d).total_wait = bres.total_wait)) := by
            rw [hfl, ← h4]
            exact List.mem_cons_self x t
          have hx := List.mem_filter.mp hmem
          have hfeas : (simulate_route br s g e d).feasible = true :=
            ((Bool.and_eq_true _ _).mp hx.2).1
          rw [hall br hx.1] at hfeas
          exact absurd hfeas (by decide)
    have hne1 : ¬((cappedValid bars).length = 1) := by omega
    rw [optimize_route, if_neg hb, if_neg hfil]
    simp only [if_neg hne1, hsp]
  · intro hlen hfeas
    have hcv : cappedValid bars ≠ [] := by
      intro hc
      rw [hc] at hlen
      simp at hlen
    have hfil : bars.filter (fun b => (rosterLookup b).isSome) ≠ [] := by
      intro hc
      apply hcv
      rw [cappedValid_eq_take, hc]
      rfl
    have hb : bars ≠ [] := by
      intro hb
      subst hb
      exact hfil rfl
    rw [optimize_route, if_neg hb, if_neg hfil]
    simp only [if_pos hlen, hfeas, Bool.false_eq_true, if_false]

/-- C6: `simulate_route` aborts at the first offending step.  If the prefix
before an unknown venue is feasible, the whole simulation returns exactly the
`"Unknown bar: …"` infeasible result with `total_wait = 0` and no steps,
independently of what follows; likewise a venue closed at its computed arrival
hour yields exactly the `"… is closed at …"` infeasible result. -/
theorem simulate_aborts_at_first_offense (pre : List String) (bad : String)
    (suffix : List String) (s : ℚ) (g : ℤ) (e : Bool) (d : Day)
    (hpre : (simulate_route pre s g e d).feasible = true) :
    (rosterLookup bad = none →
      simulate_route (pre ++ bad :: suffix) s g e d
        = ⟨false, some ("Unknown bar: " ++ bad), 0, []⟩)
    ∧ (∀ bar, rosterLookup bad = some bar →
        is_bar_open bad (endHour g e pre s) d = false →
        simulate_route (pre ++ bad :: suffix) s g e d
          = ⟨false, some (bad ++ " is closed at " ++ format_time (endHour g e pre s)),
             0, []⟩) := by
  constructor
  · intro hl
    have happ := simGo_append pre (bad :: suffix) s hpre
      (by rw [simGo_cons_unknown hl])
    rw [simulate_route, happ, simGo_cons_unknown hl]
  · intro bar hl ho
    have happ := simGo_append pre (bad :: suffix) s hpre
      (by rw [simGo_cons_closed hl ho])
    rw [simulate_route, happ, simGo_cons_closed hl ho]

/-- C7: in every feasible simulation the recorded hours satisfy the fixed
recurrence: each step departs at its arrival plus `wait/60` plus one hour of
stay, and each next step arrives exactly `7/60` hours after the previous
departure. -/
theorem simulate_step_recurrence (route : List String) (s : ℚ) (g : ℤ) (e : Bool)
    (d : Day) (h : (simulate_route route s g e d).feasible = true) :
    ∀ i st, (simulate_route route s g e d).steps[i]? = some st →
      st.departH = st.arrivalH + (st.wait : ℚ) / 60 + 1
      ∧ ∀ st', (simulate_route route s g e d).steps[i + 1]? = some st' →
          st'.arrivalH = st.departH + 7/60 := by
  intro i st hst
  have hstay : STAY_DURATION_MINUTES / 60 = (1 : ℚ) := by
    norm_num [STAY_DURATION_MINUTES]
  have htravel : TRAVEL_TIME_MINUTES / 60 = (7 : ℚ)/60 := by
    norm_num [TRAVEL_TIME_MINUTES]
  obtain ⟨h1, h2⟩ := (simGo_step_invariants route s h).2 i st hst
  refine ⟨by rw [h1, hstay], ?_⟩
  intro st' hst'
  rw [h2 st' hst', htravel]

/-- C1: whenever `optimize_route` returns a feasible ordering, that ordering's
simulation result is returned with it, its total wait is minimal among all
feasible permutations of the filtered-and-capped venue set, and among the
permutations tying on the minimum it is the first in the fixed enumeration
order of `itertools.permutations` — whose first element is the input order
itself. -/
theorem optimize_route_optimal {bars : List String} {s : ℚ} {g : ℤ} {e : Bool}
    {d : Day} {r : List String} {res : SimResult}
    (h : optimize_route bars s g e d = (some r, res)) :
    res = simulate_route r s g e d
    ∧ res.feasible = true
    ∧ (∀ q, q.Perm (cappedValid bars) →
        (simulate_route q s g e d).feasible = true →
        res.total_wait ≤ (simulate_route q s g e d).total_wait)
    ∧ ((permsLex (cappedValid bars)).filter
        (fun p => (simulate_route p s g e d).feasible
          && decide ((simulate_route p s g e d).total_wait = res.total_wait))).head?
        = some r
    ∧ (permsLex (cappedValid bars)).head? = some (cappedValid bars) := by
  by_cases hb : bars = []
  · subst hb
    rw [optimize_route, if_pos rfl] at h
    simp at h
  by_cases hf : bars.filter (fun b => (rosterLookup b).isSome) = []
  · rw [optimize_route, if_neg hb, if_pos hf] at h
    simp at h
  rw [optimize_route, if_neg hb, if_neg hf] at h
  by_cases hlen : (cappedValid bars).length = 1
  · simp only [if_pos hlen] at h
    obtain ⟨v, hv⟩ := List.length_eq_one.mp hlen
    by_cases hfeas : (simulate_route (cappedValid bars) s g e d).feasible = true
    · rw [if_pos hfeas] at h
      have hr : cappedValid bars = r ∧ simulate_route (cappedValid bars) s g e d = res := by
        simpa [Prod.ext_iff] using h
      obtain ⟨hr1, hr2⟩ := hr
      subst hr1
      subst hr2
      refine ⟨rfl, hfeas, ?_, ?_, permsLex_head _⟩
      · intro q hq _
        rw [hv] at hq
        rw [List.perm_singleton.mp hq, ← hv]
      · rw [hv]
        have hfeas' : (simulate_route [v] s g e d).feasible = true := by
          rw [← hv]
          exact hfeas
        simp [permsLex, permsAux, selects, hfeas', hv]
    · rw [if_neg hfeas] at h
      simp at h
  · simp only [if_neg hlen] at h
    rcases hsp : searchPerms s g e d (permsLex (cappedValid bars)) none with _ | pair
    · rw [hsp] at h
      simp at h
    · rw [hsp] at h
      obtain ⟨br, bres⟩ := pair
      have hbr : br = r ∧ bres = res := by
        simpa [Prod.ext_iff] using h
      obtain ⟨hbr1, hbr2⟩ := hbr
      subst hbr1
      subst hbr2
      have hinv := @searchPerms_goodBest s g e d (permsLex (cappedValid bars)) [] none
        (fun q hq => absurd hq (List.not_mem_nil q))
      rw [hsp] at hinv
      simp only [List.nil_append] at hinv
      obtain ⟨h1, h2, h3, h4⟩ := hinv
      exact ⟨h1, h2,
        fun q hq hfq => h3 q (mem_permsLex_iff.mpr hq) hfq,
        h4, permsLex_head _⟩

/-!
## Concrete evaluations
-/

theorem lookup_chimys : rosterLookup "Chimy's" = some chimys := rfl

theorem lookup_crickets : rosterLookup "Cricket's" = some crickets := rfl

theorem lookup_barPM : rosterLookup "Bar PM" = some barPM := rfl

theorem eval_sim_CK_friday :
    simulate_route ["Chimy's", "Cricket's"] 20 2 false Day.friday
      = ⟨true, none, 34,
         [⟨"Chimy's", "20:00", "21:18", 18, 20, 213/10⟩,
          ⟨"Cricket's", "21:25", "22:41", 16, 257/12, 1361/60⟩]⟩ := by
  norm_num [simulate_route, simGo, is_bar_open, calculate_wait_time, lookup_chimys,
    lookup_crickets, chimys, crickets, pyRound, BASE_WAIT_MULTIPLIER,
    POPULARITY_FACTOR, GROUP_SIZE_PENALTY, STAY_DURATION_MINUTES,
    TRAVEL_TIME_MINUTES, format_time, pymod24, padTwo,
    show toString (20 : ℤ) = "20" from by decide,
    show toString (21 : ℤ) = "21" from by decide,
    show toString (22 : ℤ) = "22" from by decide,
    show toString (0 : ℤ) = "0" from by decide,
    show toString (18 : ℤ) = "18" from by decide,
    show toString (25 : ℤ) = "25" from by decide,
    show toString (41 : ℤ) = "41" from by decide]
  simp

theorem eval_opt_CK_friday :
    optimize_route ["Chimy's", "Cricket's"] 20 2 false Day.friday
      = (some ["Cricket's", "Chimy's"],
         ⟨true, none, 33,
          [⟨"Cricket's", "20:00", "21:14", 14, 20, 637/30⟩,
           ⟨"Chimy's", "21:21", "22:40", 19, 427/20, 68/3⟩]⟩) := by
  norm_num [optimize_route, cappedValid, permsLex, permsAux, selects, searchPerms,
    updateBest, simulate_route, simGo, is_bar_open, calculate_wait_time,
    lookup_chimys, lookup_crickets, chimys, crickets, pyRound,
    BASE_WAIT_MULTIPLIER, POPULARITY_FACTOR, GROUP_SIZE_PENALTY,
    STAY_DURATION_MINUTES, TRAVEL_TIME_MINUTES, MAX_BARS_IN_ROUTE, format_time,
    pymod24, padTwo,
    show toString (20 : ℤ) = "20" from by decide,
    show toString (21 : ℤ) = "21" from by decide,
    show toString (22 : ℤ) = "22" from by decide,
    show toString (0 : ℤ) = "0" from by decide,
    show toString (14 : ℤ) = "14" from by decide,
    show toString (40 : ℤ) = "40" from by decide,
    show toString (18 : ℤ) = "18" from by decide,
    show toString (25 : ℤ) = "25" from by decide,
    show toString (41 : ℤ) = "41" from by decide,
    show toString (19 : ℤ) = "19" from by decide]
  simp

theorem eval_opt_CC_friday :
    optimize_route ["Chimy's", "Chimy's"] 20 2 false Day.friday
      = (some ["Chimy's", "Chimy's"],
         ⟨true, none, 37,
          [⟨"Chimy's", "20:00", "21:18", 18, 20, 213/10⟩,
           ⟨"Chimy's", "21:25", "22:44", 19, 257/12, 341/15⟩]⟩) := by
  norm_num [optimize_route, cappedValid, permsLex, permsAux, selects, searchPerms,
    updateBest, simulate_route, simGo, is_bar_open, calculate_wait_time,
    lookup_chimys, chimys, pyRound, BASE_WAIT_MULTIPLIER, POPULARITY_FACTOR,
    GROUP_SIZE_PENALTY, STAY_DURATION_MINUTES, TRAVEL_TIME_MINUTES,
    MAX_BARS_IN_ROUTE, format_time, pymod24, padTwo,
    show toString (20 : ℤ) = "20" from by decide,
    show toString (21 : ℤ) = "21" from by decide,
    show toString (22 : ℤ) = "22" from by decide,
    show toString (0 : ℤ) = "0" from by decide,
    show toString (18 : ℤ) = "18" from by decide,
    show toString (25 : ℤ) = "25" from by decide,
    show toString (44 : ℤ) = "44" from by decide]
  simp

theorem eval_opt_C_friday :
    optimize_route ["Chimy's"] 20 2 false Day.friday
      = (some ["Chimy's"],
         ⟨true, none, 18, [⟨"Chimy's", "20:00", "21:18", 18, 20, 213/10⟩]⟩) := by
  norm_num [optimize_route, cappedValid, permsLex, permsAux, selects, searchPerms,
    updateBest, simulate_route, simGo, is_bar_open, calculate_wait_time,
    lookup_chimys, chimys, pyRound, BASE_WAIT_MULTIPLIER, POPULARITY_FACTOR,
    GROUP_SIZE_PENALTY, STAY_DURATION_MINUTES, TRAVEL_TIME_MINUTES,
    MAX_BARS_IN_ROUTE, format_time, pymod24, padTwo,
    show toString (20 : ℤ) = "20" from by decide,
    show toString (21 : ℤ) = "21" from by decide,
    show toString (0 : ℤ) = "0" from by decide,
    show toString (18 : ℤ) = "18" from by decide]
  simp

theorem eval_opt_C_g25 :
    optimize_route ["Chimy's"] 18 25 false Day.friday
      = (some ["Chimy's"],
         ⟨true, none, 35, [⟨"Chimy's", "18:00", "19:35", 35, 18, 235/12⟩]⟩) := by
  norm_num [optimize_route, cappedValid, permsLex, permsAux, selects, searchPerms,
    updateBest, simulate_route, simGo, is_bar_open, calculate_wait_time,
    lookup_chimys, chimys, pyRound, BASE_WAIT_MULTIPLIER, POPULARITY_FACTOR,
    GROUP_SIZE_PENALTY, STAY_DURATION_MINUTES, TRAVEL_TIME_MINUTES,
    MAX_BARS_IN_ROUTE, format_time, pymod24, padTwo,
    show toString (18 : ℤ) = "18" from by decide,
    show toString (19 : ℤ) = "19" from by decide,
    show toString (0 : ℤ) = "0" from by decide,
    show toString (35 : ℤ) = "35" from by decide]
  simp

theorem eval_opt_C_g20 :
    optimize_route ["Chimy's"] 18 20 false Day.friday
      = (some ["Chimy's"],
         ⟨true, none, 31, [⟨"Chimy's", "18:00", "19:31", 31, 18, 1171/60⟩]⟩) := by
  norm_num [optimize_route, cappedValid, permsLex, permsAux, selects, searchPerms,
    updateBest, simulate_route, simGo, is_bar_open, calculate_wait_time,
    lookup_chimys, chimys, pyRound, BASE_WAIT_MULTIPLIER, POPULARITY_FACTOR,
    GROUP_SIZE_PENALTY, STAY_DURATION_MINUTES, TRAVEL_TIME_MINUTES,
    MAX_BARS_IN_ROUTE, format_time, pymod24, padTwo,
    show toString (18 : ℤ) = "18" from by decide,
    show toString (19 : ℤ) = "19" from by decide,
    show toString (0 : ℤ) = "0" from by decide,
    show toString (31 : ℤ) = "31" from by decide]
  simp

theorem eval_sim_CK_sunday23 :
    simulate_route ["Chimy's", "Cricket's"] 23 2 false Day.sunday
      = ⟨true, none, 41,
         [⟨"Chimy's", "23:00", "00:23", 23, 23, 1463/60⟩,
          ⟨"Cricket's", "00:30", "01:48", 18, 49/2, 129/5⟩]⟩ := by
  norm_num [simulate_route, simGo, is_bar_open, calculate_wait_time, lookup_chimys,
    lookup_crickets, chimys, crickets, pyRound, BASE_WAIT_MULTIPLIER,
    POPULARITY_FACTOR, GROUP_SIZE_PENALTY, STAY_DURATION_MINUTES,
    TRAVEL_TIME_MINUTES, format_time, pymod24, padTwo,
    show toString (23 : ℤ) = "23" from by decide,
    show toString (0 : ℤ) = "0" from by decide,
    show toString (1 : ℤ) = "1" from by decide,
    show toString (30 : ℤ) = "30" from by decide,
    show toString (48 : ℤ) = "48" from by decide]
  simp

theorem eval_sim_C_sunday :
    simulate_route ["Chimy's"] 20 2 false Day.sunday
      = ⟨true, none, 18, [⟨"Chimy's", "20:00", "21:18", 18, 20, 213/10⟩]⟩ := by
  norm_num [simulate_route, simGo, is_bar_open, calculate_wait_time, lookup_chimys,
    chimys, pyRound, BASE_WAIT_MULTIPLIER, POPULARITY_FACTOR, GROUP_SIZE_PENALTY,
    STAY_DURATION_MINUTES, TRAVEL_TIME_MINUTES, format_time, pymod24, padTwo,
    show toString (20 : ℤ) = "20" from by decide,
    show toString (21 : ℤ) = "21" from by decide,
    show toString (0 : ℤ) = "0" from by decide,
    show toString (18 : ℤ) = "18" from by decide]
  simp

theorem eval_opt_BPM_sunday :
    optimize_route ["Bar PM"] 20 2 false Day.sunday
      = (none, ⟨false, some "Bar PM is closed at 20:00", 0, []⟩) := by
  norm_num [optimize_route, cappedValid, permsLex, permsAux, selects, searchPerms,
    updateBest, simulate_route, simGo, is_bar_open, calculate_wait_time,
    lookup_barPM, barPM, pyRound, MAX_BARS_IN_ROUTE, format_time, pymod24, padTwo,
    show toString (20 : ℤ) = "20" from by decide,
    show toString (0 : ℤ) = "0" from by decide]
  simp

/-- C2: the open-hours check is NOT taken modulo 24.  A route started Sunday
at 23:00 reaches its second venue at raw hour 24.5 (00:30 after midnight);
the venue's Sunday window is (18, 0), so at effective hour 0.5 it is closed,
yet `is_bar_open` judges the raw hour 24.5 open (24.5 ≥ 18) and the
simulation reports the route feasible. -/
theorem is_bar_open_uses_raw_hour :
    (simulate_route ["Chimy's", "Cricket's"] 23 2 false Day.sunday).feasible = true
    ∧ ((simulate_route ["Chimy's", "Cricket's"] 23 2 false Day.sunday).steps[1]?).map
        RouteStep.arrivalH = some (49/2)
    ∧ is_bar_open "Cricket's" (49/2) Day.sunday = true
    ∧ pymod24 (49/2) = 1/2
    ∧ is_bar_open "Cricket's" (1/2) Day.sunday = false := by
  refine ⟨?_, ?_, ?_, ?_, ?_⟩
  · rw [eval_sim_CK_sunday23]
  · rw [eval_sim_CK_sunday23]
    rfl
  · norm_num [is_bar_open, lookup_crickets, crickets]
  · norm_num [pymod24]
  · norm_num [is_bar_open, lookup_crickets, crickets]

/-- C3 counterexample: `optimize_route` does not deduplicate.  On the input
`["Chimy's", "Chimy's"]` it returns the two-stop route visiting the venue
twice, so its outcome differs from the outcome on the deduplicated filtered
input claimed by the specification. -/
theorem optimize_no_dedup_cex :
    optimize_route ["Chimy's", "Chimy's"] 20 2 false Day.friday
      ≠ optimize_route
          (List.dedup (List.filter (fun b => (rosterLookup b).isSome)
            ["Chimy's", "Chimy's"]))
          20 2 false Day.friday := by
  have hdd : List.dedup (List.filter (fun b => (rosterLookup b).isSome)
      ["Chimy's", "Chimy's"]) = ["Chimy's"] := by decide
  rw [hdd, eval_opt_CC_friday, eval_opt_C_friday]
  intro hcon
  have h2 := congrArg (fun p => p.2.total_wait) hcon
  simp at h2

/-- C8 counterexample: `optimize_route` does not clamp the group size to
`[1, 20]`; with 25 people the computed wait (35 min) differs from the wait
computed for the clamped value 20 (31 min). -/
theorem optimize_no_clamp_cex :
    optimize_route ["Chimy's"] 18 25 false Day.friday
      ≠ optimize_route ["Chimy's"] 18 (min 20 (max 1 25)) false Day.friday := by
  have hmin : (min 20 (max 1 25) : ℤ) = 20 := by decide
  rw [hmin, eval_opt_C_g25, eval_opt_C_g20]
  intro hcon
  have h2 := congrArg (fun p => p.2.total_wait) hcon
  simp at h2

/-- C5 counterexample: with a single surviving venue that is closed, no
permutation is feasible, yet the returned reason is the venue's own
`"Bar PM is closed at 20:00"`, not the claimed
`"These bars are closed at that time: …"` listing. -/
theorem optimize_singleton_reason_cex :
    optimize_route ["Bar PM"] 20 2 false Day.sunday
      = (none, ⟨false, some "Bar PM is closed at 20:00", 0, []⟩)
    ∧ permsLex (cappedValid ["Bar PM"]) = [["Bar PM"]]
    ∧ (simulate_route ["Bar PM"] 20 2 false Day.sunday).feasible = false
    ∧ "Bar PM is closed at 20:00" ≠ "These bars are closed at that time: Bar PM" := by
  refine ⟨eval_opt_BPM_sunday, by decide, by decide, by decide⟩

/-- Witness for C1 at a concrete two-venue request: the returned ordering's
total wait (33) is at most that of the other permutation, and the returned
ordering is the first among the minimal-wait permutations in enumeration
order. -/
theorem optimize_route_optimal_witness :
    (33 : ℤ) ≤ (simulate_route ["Chimy's", "Cricket's"] 20 2 false Day.friday).total_wait
    ∧ ((permsLex (cappedValid ["Chimy's", "Cricket's"])).filter
        (fun p => (simulate_route p 20 2 false Day.friday).feasible
          && decide ((simulate_route p 20 2 false Day.friday).total_wait = (33 : ℤ)))).head?
        = some ["Cricket's", "Chimy's"] := by
  have H := optimize_route_optimal eval_opt_CK_friday
  constructor
  · exact H.2.2.1 ["Chimy's", "Cricket's"] (by decide) (by rw [eval_sim_CK_friday])
  · exact H.2.2.2.1

/-- Witness for C3 on a seven-name input with six recognised venues: the cap
keeps the first five valid names and the outcome equals the outcome on the
capped list. -/
theorem optimize_filter_cap_witness :
    cappedValid ["Chimy's", "Cricket's", "Bier Haus", "Atomic", "Nowhere",
        "Misquetes", "Wrecked"]
      = ["Chimy's", "Cricket's", "Bier Haus", "Atomic", "Misquetes"]
    ∧ optimize_route ["Chimy's", "Cricket's", "Bier Haus", "Atomic", "Nowhere",
        "Misquetes", "Wrecked"] 20 2 false Day.friday
      = optimize_route (cappedValid ["Chimy's", "Cricket's", "Bier Haus", "Atomic",
        "Nowhere", "Misquetes", "Wrecked"]) 20 2 false Day.friday := by
  have H := optimize_filter_cap ["Chimy's", "Cricket's", "Bier Haus", "Atomic",
    "Nowhere", "Misquetes", "Wrecked"] 20 2 false Day.friday
  exact ⟨by decide, H.2.2 (by decide)⟩

/-- Witness for C4 at Chimy's, 21:00, group of two, no event: the wait equals
the rounded multiplier product and is at least one minute. -/
theorem wait_formula_and_min_witness :
    (calculate_wait_time "Chimy's" 21 2 false
      = max 1 (pyRound ((chimys.base_wait : ℚ)
          * (if (21 : ℚ) ≥ 22 then 14/10 else if (21 : ℚ) ≥ 21 then 12/10
             else if (21 : ℚ) ≥ 20 then 11/10 else 1)
          * (1 + ((chimys.popularity : ℚ) - 3) * (8/100))
          * (1 + (max 0 ((2 : ℤ) - 2) : ℤ) * (5/100))
          * (if false then (3 : ℚ)/2 else 1))))
    ∧ 1 ≤ calculate_wait_time "Chimy's" 21 2 false := by
  have H := wait_formula_and_min lookup_chimys 21 2 false
  exact ⟨H.1, H.2.1⟩

/-- Witness for C5 on two venues both closed on Sunday: the diagnostic lists
both of them. -/
theorem optimize_no_feasible_diagnostic_witness :
    optimize_route ["Bar PM", "The Library"] 20 2 false Day.sunday
      = (none, ⟨false,
          some "These bars are closed at that time: Bar PM, The Library", 0, []⟩) := by
  have H := (optimize_no_feasible_diagnostic ["Bar PM", "The Library"]
    20 2 false Day.sunday).1 (by decide) (by decide)
  rw [H]
  decide

/-- Witness for C6: after a feasible visit to Chimy's, an unknown name aborts
with the `"Unknown bar"` reason and a venue closed on Sunday aborts with the
`"is closed at"` reason, the suffix never mattering. -/
theorem simulate_aborts_witness :
    simulate_route (["Chimy's"] ++ "Narnia" :: ["Cricket's"]) 20 2 false Day.sunday
      = ⟨false, some ("Unknown bar: " ++ "Narnia"), 0, []⟩
    ∧ simulate_route (["Chimy's"] ++ "Bar PM" :: ["Cricket's"]) 20 2 false Day.sunday
      = ⟨false, some ("Bar PM" ++ " is closed at "
          ++ format_time (endHour 2 false ["Chimy's"] 20)), 0, []⟩ := by
  have hpre : (simulate_route ["Chimy's"] 20 2 false Day.sunday).feasible = true := by
    rw [eval_sim_C_sunday]
  constructor
  · exact (simulate_aborts_at_first_offense ["Chimy's"] "Narnia" ["Cricket's"]
      20 2 false Day.sunday hpre).1 rfl
  · exact (simulate_aborts_at_first_offense ["Chimy's"] "Bar PM" ["Cricket's"]
      20 2 false Day.sunday hpre).2 barPM rfl rfl

/-- Witness for C7 on the feasible two-stop Friday route: the first step
departs at its arrival plus wait plus the one-hour stay. -/
theorem simulate_step_recurrence_witness :
    ((simulate_route ["Chimy's", "Cricket's"] 20 2 false Day.friday).steps[0]?
      = some ⟨"Chimy's", "20:00", "21:18", 18, 20, 213/10⟩)
    ∧ (213 : ℚ)/10 = 20 + ((18 : ℤ) : ℚ)/60 + 1 := by
  have hst : (simulate_route ["Chimy's", "Cricket's"] 20 2 false Day.friday).steps[0]?
      = some ⟨"Chimy's", "20:00", "21:18", 18, 20, 213/10⟩ := by
    rw [eval_sim_CK_friday]
    rfl
  refine ⟨hst, ?_⟩
  have H := (simulate_step_recurrence ["Chimy's", "Cricket's"] 20 2 false Day.friday
    (by rw [eval_sim_CK_friday]) 0 _ hst).1
  exact H

/-- Witness for C8 (amended): with group size 25 — outside the claimed clamp
range — the single-venue result is expressed by `calculate_wait_time` at 25. -/
theorem optimize_group_size_pass_through_witness :
    optimize_route ["Chimy's"] 18 25 false Day.friday
      = (some ["Chimy's"],
         ⟨true, none, calculate_wait_time "Chimy's" 18 25 false,
          [⟨"Chimy's", format_time 18,
            format_time (18 + (calculate_wait_time "Chimy's" 18 25 false : ℚ) / 60 + 1),
            calculate_wait_time "Chimy's" 18 25 false, 18,
            18 + (calculate_wait_time "Chimy's" 18 25 false : ℚ) / 60 + 1⟩]⟩) := by
  exact optimize_group_size_pass_through lookup_chimys
    (by norm_num [is_bar_open, lookup_chimys, chimys]) 25 false

/-- Witness for C10: at Chimy's, 21:00, no event, the wait for two people is
at most the wait for twenty-five. -/
theorem wait_monotone_in_group_size_witness :
    calculate_wait_time "Chimy's" 21 2 false ≤ calculate_wait_time "Chimy's" 21 25 false :=
  wait_monotone_in_group_size lookup_chimys 21 false (by decide)
